import Mathlib

/-!
Verification development for the django-typomatic schema-to-TypeScript
translation engine (`src/django_typomatic/__init__.py`).

The Python module keeps three process-wide insertion-ordered dictionaries
(`__serializers`, `__field_mappings`, `__mapping_overrides`).  Python
dictionaries preserve insertion order, so each one is embedded as an
association list; the class universe is an abstract type `Cls` with
decidable equality (a Python class is compared by identity).  Host
framework introspection (class name, serializer field enumeration,
`issubclass` capability checks, and the static scalar mapping table
imported from the absent `mappings` module) is collected in an `Env`
record that parameterises the embedding.
-/

set_option autoImplicit false

namespace DjangoTypomatic

/-- First-match lookup in an association list: the embedding of reading a
Python dictionary entry (`d[k]` / `d.get(k)`). -/
def dictGet {α : Type} {β : Type} [DecidableEq α] (l : List (α × β)) (k : α) : Option β :=
  match l with
  | [] => none
  | p :: t => if p.1 = k then some p.2 else dictGet t k

/-- Embedding of `if k not in d: d[k] = dflt` followed by an in-place update
of `d[k]` with `f`: an absent key is appended at the end (Python dictionaries
append new keys in insertion order), a present key keeps its position. -/
def dictUpdate {α : Type} {β : Type} [DecidableEq α] (l : List (α × β)) (k : α) (dflt : β)
    (f : β → β) : List (α × β) :=
  match l with
  | [] => [(k, f dflt)]
  | p :: t => if p.1 = k then (p.1, f p.2) :: t else p :: dictUpdate t k dflt f

/-- Embedding of `if k not in d: d[k] = v` (insert only when absent). -/
def dictSetIfAbsent {α : Type} {β : Type} [DecidableEq α] (l : List (α × β)) (k : α) (v : β) :
    List (α × β) :=
  match l with
  | [] => [(k, v)]
  | p :: t => if p.1 = k then p :: t else p :: dictSetIfAbsent t k v

/-- A serializer field instance as the resolver sees it: `kind` is
`type(field)`, and `child` is `some (type(field.child))` exactly when the
field has a `child` attribute (a many/collection field), else `none`. -/
structure FieldD (Cls : Type) where
  kind : Cls
  child : Option Cls

/-- `field_type` of `__process_field`: the child class for a collection
field (`is_many and type(field.child)`), otherwise the field class itself
(`or type(field)`). -/
def baseKind {Cls : Type} (f : FieldD Cls) : Cls :=
  match f.child with
  | some c => c
  | none => f.kind

/-- The three module-level registries of `django_typomatic/__init__.py`:
`__serializers` (context to serializer class list), `__field_mappings`
(context to field class to TS type), and `__mapping_overrides` (context to
serializer class to field-name to TS type). -/
structure Registry (Cls : Type) where
  serializers : List (String × List Cls)
  field_mappings : List (String × List (Cls × String))
  mapping_overrides : List (String × List (Cls × List (String × String)))

/-- The registries at module load: three empty dictionaries. -/
def emptyRegistry (Cls : Type) : Registry Cls :=
  { serializers := [], field_mappings := [], mapping_overrides := [] }

/-- Host-framework collaborator interface: `name c` is `c.__name__`,
`fieldsOf c` is the ordered field list of serializer class `c` (the
`get_fields()` / `_declared_fields` enumeration performed by
`__get_ts_interface`, a collaborator concern), `isSerializer` and `isField`
are the `issubclass(..., serializers.Serializer)` and
`issubclass(..., serializers.Field)` capability checks, and `mappings` is
the static scalar table.  Modelled from the spec: the `mappings` module
itself is not part of the source tree, only its use
`mappings.get(field_type, "any")`; the table is therefore kept abstract as
a map from field kinds to type names with fallback "any". -/
structure Env (Cls : Type) where
  name : Cls → String
  fieldsOf : Cls → List (String × FieldD Cls)
  isSerializer : Cls → Bool
  isField : Cls → Bool
  mappings : List (Cls × String)

/-- The shared context key `__default_context = "default"`. -/
def default_context : String := "default"

/-- Removal of one trailing "Serializer" from a class name: the embedding of
`re.sub("Serializer$", "", name)` (the anchored pattern matches at most
once, at the very end). -/
def stripSerializerSuffix (name : String) : String :=
  let s := name.data
  let suf := "Serializer".data
  if suf = s.drop (s.length - suf.length) then
    { data := s.take (s.length - suf.length) }
  else
    name

/-- `__get_interface_name(name, prefix, suffix)`. -/
def get_interface_name (name pre suf : String) : String :=
  pre ++ stripSerializerSuffix name ++ suf

/-- The `@ts_field(ts_type, context)` decorator body applied to class `cls`
with registry state `reg`: when `cls` is a `serializers.Field` subclass the
mapping `cls -> ts_type` is inserted into the context entry of
`__field_mappings` (only when absent); in every case the class itself is
returned unchanged.  The result pairs the returned class with the new
registry state. -/
def ts_field {Cls : Type} [DecidableEq Cls] (env : Env Cls) (ts_type : String) (context : String)
    (cls : Cls) (reg : Registry Cls) : Cls × Registry Cls :=
  if env.isField cls then
    (cls, { reg with
      field_mappings := dictUpdate reg.field_mappings context []
        (fun m => dictSetIfAbsent m cls ts_type) })
  else
    (cls, reg)

/-- The `@ts_interface(context, mapping_overrides)` decorator body applied
to class `cls`: when `cls` is a `serializers.Serializer` subclass it is
appended (unconditionally) to the context entry of `__serializers`, and a
truthy (non-empty) override dictionary is inserted for `cls` into
`__mapping_overrides` when `cls` is not already present there; the class is
always returned unchanged. -/
def ts_interface {Cls : Type} [DecidableEq Cls] (env : Env Cls) (context : String)
    (overrides : Option (List (String × String))) (cls : Cls) (reg : Registry Cls) :
    Cls × Registry Cls :=
  if env.isSerializer cls then
    let reg1 := { reg with
      serializers := dictUpdate reg.serializers context [] (fun l => l ++ [cls]) }
    let reg2 :=
      match overrides with
      | some ov =>
        if ov = [] then reg1
        else { reg1 with
          mapping_overrides := dictUpdate reg1.mapping_overrides context []
            (fun m => dictSetIfAbsent m cls ov) }
      | none => reg1
    (cls, reg2)
  else
    (cls, reg)

/-- `__serializers[__default_context]` guarded by membership of the key:
the list is empty when the default context was never registered. -/
def defaultSerializers {Cls : Type} [DecidableEq Cls] (reg : Registry Cls) : List Cls :=
  (dictGet reg.serializers default_context).getD []

/-- The field-kind override consulted by tiers 4 and 5:
`__field_mappings[ctx][k]` guarded by both membership checks. -/
def kindOverride {Cls : Type} [DecidableEq Cls] (reg : Registry Cls) (ctx : String) (k : Cls) :
    Option String :=
  dictGet ((dictGet reg.field_mappings ctx).getD []) k

/-- The per-field-name override consulted by tier 6:
`__mapping_overrides[ctx][serializer][field_name]` guarded by the three
membership checks. -/
def nameOverride {Cls : Type} [DecidableEq Cls] (reg : Registry Cls) (ctx : String)
    (serializer : Cls) (field_name : String) : Option String :=
  dictGet ((dictGet ((dictGet reg.mapping_overrides ctx).getD []) serializer).getD []) field_name

/-- The final step of `__process_field`: `if is_many: ts_type += "[]"`. -/
def appendArray (is_many : Bool) (ts_type : String) : String :=
  if is_many then ts_type ++ "[]" else ts_type

/-- `__process_field(field_name, field, context, serializer, prefix, suffix)`.
The first statement `field_type in __serializers[context]` indexes
`__serializers` without a membership guard, so an unregistered context is a
`KeyError`, embedded as `none`; every later tier is guarded in the source
and never fails.  The guarded Python reads such as
`(context in __field_mappings) and field_type in __field_mappings[context]`
followed by `.get(field_type, "any")` are embedded as the corresponding
`Option`-valued lookups (`kindOverride`, `nameOverride`); a hit always
returns the stored string.  A collection field gets `[]` appended last. -/
def process_field {Cls : Type} [DecidableEq Cls] (env : Env Cls) (reg : Registry Cls)
    (field_name : String) (field : FieldD Cls) (context : String) (serializer : Cls)
    (pre suf : String) : Option (String × String) :=
  let is_many := field.child.isSome
  let field_type := baseKind field
  match dictGet reg.serializers context with
  | none => none
  | some ctxSers =>
    let ts_type :=
      if field_type ∈ ctxSers then
        get_interface_name (env.name field_type) pre suf
      else if field_type ∈ defaultSerializers reg then
        get_interface_name (env.name field_type) pre suf
      else
        match kindOverride reg context field_type with
        | some t => t
        | none =>
          match kindOverride reg default_context field_type with
          | some t => t
          | none =>
            match nameOverride reg context serializer field_name with
            | some t => t
            | none => (dictGet env.mappings field_type).getD "any"
    some (field_name, appendArray is_many ts_type)

/-- The deduplication loop of `__get_ts_interface`: each resolved type is
appended to `ts_indexable_types` only when not already present, so the
result is the list of distinct resolved types in first-seen order. -/
def indexableTypes (types : List String) : List String :=
  types.foldl (fun acc t => if t ∈ acc then acc else acc ++ [t]) []

/-- One `"    name: type;"` member line of the interface body. -/
def fieldLine (p : String × String) : String :=
  "    " ++ p.1 ++ ": " ++ p.2 ++ ";"

/-- The final f-string of `__get_ts_interface` assembled from the interface
name and the resolved `(field_name, ts_type)` pairs: header, index
signature line (the pipe-joined deduplicated types), the newline-joined
member lines, and the closing brace. -/
def renderInterface (nm : String) (pairs : List (String × String)) : String :=
  "  export interface " ++ nm ++ " \x7b\n" ++
    ("    [x: string]: " ++ " | ".intercalate (indexableTypes (pairs.map Prod.snd)) ++ ";" ++
      "\n" ++ "\n".intercalate (pairs.map fieldLine) ++ "\n  \x7d\n\n")

/-- `__get_ts_interface(serializer, context, prefix, suffix)`: resolve every
field in order with `__process_field` and render the block; a resolution
failure (only possible through the unguarded `__serializers[context]`
access) propagates. -/
def get_ts_interface {Cls : Type} [DecidableEq Cls] (env : Env Cls) (reg : Registry Cls)
    (serializer : Cls) (context : String) (pre suf : String) : Option String :=
  ((env.fieldsOf serializer).mapM
      (fun kv => process_field env reg kv.1 kv.2 context serializer pre suf)).map
    (renderInterface (get_interface_name (env.name serializer) pre suf))

/-- `"".join(interfaces)`. -/
def joinAll (l : List String) : String :=
  l.foldl (fun a b => a ++ b) ""

/-- The loop body of `generate_ts`: iterate the `__serializers` entries in
insertion order; for each context passing the filter
(`all_contexts or context == declared_context`) render all of its
serializers and write the namespace-wrapped block. -/
def emitContexts {Cls : Type} [DecidableEq Cls] (env : Env Cls) (reg : Registry Cls)
    (entries : List (String × List Cls)) (context : String) (pre suf : String)
    (all_contexts : Bool) : Option String :=
  match entries with
  | [] => some ""
  | (declared, sers) :: rest =>
    if all_contexts = true ∨ context = declared then
      match sers.mapM (fun s => get_ts_interface env reg s declared pre suf) with
      | none => none
      | some interfaces =>
        match emitContexts env reg rest context pre suf all_contexts with
        | none => none
        | some out =>
          some ("\ndeclare namespace " ++ declared ++ " \x7b\n\n" ++ joinAll interfaces ++
            "\x7d" ++ out)
    else
      emitContexts env reg rest context pre suf all_contexts

/-- `generate_ts(output_path, context, prefix, suffix, all_contexts)` as the
final contents of the sink.  `open(output_path, "w")` truncates the file
before any context is examined, so the prior sink contents `priorSink` are
discarded whatever happens next; the returned string is what the file holds
after a successful run (`none` models an uncaught exception during
generation). -/
def generate_ts {Cls : Type} [DecidableEq Cls] (env : Env Cls) (reg : Registry Cls)
    (_priorSink : String) (context : String) (pre suf : String) (all_contexts : Bool) :
    Option String :=
  emitContexts env reg reg.serializers context pre suf all_contexts

/-- A small closed universe of host classes used for concrete runs: the
serializer classes `UserSerializer`, `AddressSerializer`, a serializer
class whose name is literally `Serializer`, and the field classes
`IntegerField`, `CharField`, `ListField`, `ReadOnlyField`. -/
inductive TCls
  | userSer
  | addrSer
  | bareSer
  | intField
  | charField
  | listField
  | roField
deriving DecidableEq

/-- Concrete collaborator environment over `TCls`: class names as declared,
`UserSerializer` with the two fields `id` (an `IntegerField`) and `tags` (a
`ListField` whose child is a `CharField`), and the static table sending
`IntegerField` to `number` and `CharField` to `string` (the entries of the
end-to-end example of the spec, the `mappings` module being outside the
source tree). -/
def tEnv : Env TCls where
  name := fun c =>
    match c with
    | .userSer => "UserSerializer"
    | .addrSer => "AddressSerializer"
    | .bareSer => "Serializer"
    | .intField => "IntegerField"
    | .charField => "CharField"
    | .listField => "ListField"
    | .roField => "ReadOnlyField"
  fieldsOf := fun c =>
    match c with
    | .userSer => [("id", ⟨.intField, none⟩), ("tags", ⟨.listField, some .charField⟩)]
    | _ => []
  isSerializer := fun c =>
    match c with
    | .userSer => true
    | .addrSer => true
    | .bareSer => true
    | _ => false
  isField := fun c =>
    match c with
    | .intField => true
    | .charField => true
    | .listField => true
    | .roField => true
    | _ => false
  mappings := [(.intField, "number"), (.charField, "string")]

/-- The registry after `@ts_interface()` on `UserSerializer` alone, starting
from the empty module state. -/
def c4Registry : Registry TCls :=
  (ts_interface tEnv default_context none TCls.userSer (emptyRegistry TCls)).2

/-- The registry after applying `@ts_interface()` to `UserSerializer` twice
in the default context, starting from the empty module state. -/
def c2RegistryTwice : Registry TCls :=
  (ts_interface tEnv default_context none TCls.userSer
    (ts_interface tEnv default_context none TCls.userSer (emptyRegistry TCls)).2).2

/-- A registry where `UserSerializer` and `AddressSerializer` are registered
in the default context and, in addition, both a field-kind override for
`AddressSerializer` and a per-field-name override for the field `address`
of `UserSerializer` are present: every tier below the nested-schema tier
has a competing answer. -/
def c1Registry : Registry TCls where
  serializers := [("default", [TCls.userSer, TCls.addrSer])]
  field_mappings := [("default", [(TCls.addrSer, "KIND-OVERRIDE")])]
  mapping_overrides := [("default", [(TCls.userSer, [("address", "NAME-OVERRIDE")])])]

/-- A registry whose default context holds a serializer class whose declared
name is literally `Serializer`, so its synthesized interface name is the
empty string. -/
def c5Registry : Registry TCls where
  serializers := [("default", [TCls.bareSer])]
  field_mappings := []
  mapping_overrides := []

/-- A registry with `UserSerializer` and `AddressSerializer` registered in
the default context and no overrides. -/
def c7Registry : Registry TCls where
  serializers := [("default", [TCls.userSer, TCls.addrSer])]
  field_mappings := []
  mapping_overrides := []

/-- A registry whose only registered context is `internal`. -/
def c9Registry : Registry TCls where
  serializers := [("internal", [TCls.userSer])]
  field_mappings := []
  mapping_overrides := []

/-- The rendered block of `UserSerializer` in the concrete environment. -/
def userBlock : String :=
  "  export interface User \x7b\n    [x: string]: number | string[];\n    id: number;\n    tags: string[];\n  \x7d\n\n"

/-! ## General lemmas about the embedded dictionary operations -/

theorem empty_append_str (s : String) : "" ++ s = s := by
  cases s with
  | mk data => rfl

theorem append_empty_str (s : String) : s ++ "" = s := by
  cases s with
  | mk data =>
    show String.mk (data ++ []) = String.mk data
    rw [List.append_nil]

theorem dictGet_dictUpdate_self {α β : Type} [DecidableEq α] (l : List (α × β)) (k : α)
    (d : β) (f : β → β) :
    dictGet (dictUpdate l k d f) k = some (f ((dictGet l k).getD d)) := by
  induction l with
  | nil => simp [dictGet, dictUpdate]
  | cons p t ih =>
    by_cases h : p.1 = k
    · simp [dictGet, dictUpdate, h]
    · simp [dictGet, dictUpdate, h, ih]

/-- Membership in the deduplication fold of `__get_ts_interface`: the fold
collects exactly the elements of the accumulator and of the traversed
list. -/
theorem indexable_foldl_mem (types : List String) :
    ∀ (acc : List String) (x : String),
      x ∈ types.foldl (fun a t => if t ∈ a then a else a ++ [t]) acc ↔ x ∈ acc ∨ x ∈ types := by
  induction types with
  | nil => simp
  | cons t l ih =>
    intro acc x
    by_cases h : t ∈ acc
    · rw [List.foldl_cons, if_pos h, ih]
      constructor
      · rintro (hx | hx)
        · exact Or.inl hx
        · exact Or.inr (List.mem_cons_of_mem _ hx)
      · rintro (hx | hx)
        · exact Or.inl hx
        · rcases List.mem_cons.mp hx with he | hx
          · exact Or.inl (he ▸ h)
          · exact Or.inr hx
    · rw [List.foldl_cons, if_neg h, ih]
      simp [List.mem_append, List.mem_cons]
      tauto

/-- The deduplication fold of `__get_ts_interface` preserves freedom from
duplicates: appending only absent elements keeps the accumulator nodup. -/
theorem indexable_foldl_nodup (types : List String) :
    ∀ acc : List String, acc.Nodup →
      (types.foldl (fun a t => if t ∈ a then a else a ++ [t]) acc).Nodup := by
  induction types with
  | nil => intro acc h; simpa using h
  | cons t l ih =>
    intro acc hacc
    by_cases h : t ∈ acc
    · rw [List.foldl_cons, if_pos h]
      exact ih acc hacc
    · rw [List.foldl_cons, if_neg h]
      refine ih _ ?_
      simp [List.nodup_append, hacc, h]

/-- A context filter that matches no entry makes the emission loop of
`generate_ts` write nothing. -/
theorem emitContexts_no_match {Cls : Type} [DecidableEq Cls] (env : Env Cls)
    (reg : Registry Cls) (context pre suf : String) :
    ∀ entries : List (String × List Cls), (∀ p ∈ entries, p.1 ≠ context) →
      emitContexts env reg entries context pre suf false = some "" := by
  intro entries
  induction entries with
  | nil => intro _; rfl
  | cons p t ih =>
    intro h
    obtain ⟨declared, sers⟩ := p
    have hp : declared ≠ context := h (declared, sers) (List.mem_cons_self _ _)
    have hcond : ¬(false = true ∨ context = declared) := by
      rintro (he | he)
      · exact Bool.false_ne_true he
      · exact hp he.symm
    rw [emitContexts, if_neg hcond]
    exact ih (fun q hq => h q (List.mem_cons_of_mem _ hq))

/-- Rendering a schema with no fields: the member section collapses to the
empty string and the index signature union is empty. -/
theorem renderInterface_empty (nm : String) :
    renderInterface nm [] =
      "  export interface " ++ nm ++ " \x7b\n    [x: string]: ;\n\n  \x7d\n\n" := by
  unfold renderInterface
  rw [String.append_assoc]
  congr 1

/-! ## Claim theorems -/

/-- Claim C1: field resolution follows the strict ordered fallback chain of
`__process_field`, first match wins.  With the context registered, the six
conjuncts characterise each tier in order: a base kind that is a schema of
the current context resolves to its synthesized interface name regardless
of any override; otherwise a schema of the default context; otherwise the
field-kind override of the current context (even when a per-field-name
override is also present, which is thereby shadowed); otherwise the
field-kind override of the default context (same shadowing); otherwise the
per-field-name override of the owning schema in the current context;
otherwise the static mapping table with fallback "any". -/
theorem c1_tier_order {Cls : Type} [DecidableEq Cls] (env : Env Cls) (reg : Registry Cls)
    (field_name : String) (field : FieldD Cls) (context : String) (serializer : Cls)
    (pre suf : String) (ctxSers : List Cls)
    (hC : dictGet reg.serializers context = some ctxSers) :
    (baseKind field ∈ ctxSers →
      process_field env reg field_name field context serializer pre suf =
        some (field_name,
          appendArray field.child.isSome (get_interface_name (env.name (baseKind field)) pre suf)))
    ∧ (baseKind field ∉ ctxSers → baseKind field ∈ defaultSerializers reg →
      process_field env reg field_name field context serializer pre suf =
        some (field_name,
          appendArray field.child.isSome (get_interface_name (env.name (baseKind field)) pre suf)))
    ∧ (baseKind field ∉ ctxSers → baseKind field ∉ defaultSerializers reg →
      ∀ t, kindOverride reg context (baseKind field) = some t →
      process_field env reg field_name field context serializer pre suf =
        some (field_name, appendArray field.child.isSome t))
    ∧ (baseKind field ∉ ctxSers → baseKind field ∉ defaultSerializers reg →
      kindOverride reg context (baseKind field) = none →
      ∀ t, kindOverride reg default_context (baseKind field) = some t →
      process_field env reg field_name field context serializer pre suf =
        some (field_name, appendArray field.child.isSome t))
    ∧ (baseKind field ∉ ctxSers → baseKind field ∉ defaultSerializers reg →
      kindOverride reg context (baseKind field) = none →
      kindOverride reg default_context (baseKind field) = none →
      ∀ t, nameOverride reg context serializer field_name = some t →
      process_field env reg field_name field context serializer pre suf =
        some (field_name, appendArray field.child.isSome t))
    ∧ (baseKind field ∉ ctxSers → baseKind field ∉ defaultSerializers reg →
      kindOverride reg context (baseKind field) = none →
      kindOverride reg default_context (baseKind field) = none →
      nameOverride reg context serializer field_name = none →
      process_field env reg field_name field context serializer pre suf =
        some (field_name,
          appendArray field.child.isSome ((dictGet env.mappings (baseKind field)).getD "any"))) := by
  refine ⟨?_, ?_, ?_, ?_, ?_, ?_⟩
  · intro h2
    simp [process_field, hC, h2]
  · intro h2 h3
    simp [process_field, hC, h2, h3]
  · intro h2 h3 t hk
    simp [process_field, hC, h2, h3, hk]
  · intro h2 h3 hk t hd
    simp [process_field, hC, h2, h3, hk, hd]
  · intro h2 h3 hk hd t hn
    simp [process_field, hC, h2, h3, hk, hd, hn]
  · intro h2 h3 hk hd hn
    simp [process_field, hC, h2, h3, hk, hd, hn]

/-- Witness for C1: in a registry where `AddressSerializer` is registered
in the default context and both a field-kind override and a per-field-name
override for `address` also exist, tier 2 still wins and the field resolves
to `Address`. -/
theorem c1_tier_order_witness :
    process_field tEnv c1Registry "address" ⟨TCls.addrSer, none⟩ "default" TCls.userSer "" "" =
      some ("address", "Address") := by
  have h := (c1_tier_order tEnv c1Registry "address" ⟨TCls.addrSer, none⟩ "default"
    TCls.userSer "" "" [TCls.userSer, TCls.addrSer] (by rfl)).1 (by decide)
  exact h.trans (by rfl)

/-- Counterexample to claim C2: the decorator body of `ts_interface`
appends the class to the context list without any membership check, so a
second registration of `UserSerializer` in the same context leaves it in
the list twice (not "at most once"), and generation renders its block
twice (not "exactly one output block"). -/
theorem c2_counterexample :
    dictGet c2RegistryTwice.serializers "default" = some [TCls.userSer, TCls.userSer]
    ∧ ((dictGet c2RegistryTwice.serializers "default").getD []).length ≠ 1
    ∧ generate_ts tEnv c2RegistryTwice "" "default" "" "" false =
      some ("\ndeclare namespace default \x7b\n\n" ++ userBlock ++ userBlock ++ "\x7d") := by
  refine ⟨by rfl, by decide, by rfl⟩

/-- Claim C2 as amended: registering the same schema class twice in the
same context is not idempotent; the duplicate registration raises no error
but appends the class again, so the context list gains one entry per
registration and rendering the context emits one block per entry (two
identical blocks after a duplicate registration). -/
theorem c2_amended {Cls : Type} [DecidableEq Cls] (env : Env Cls) (reg : Registry Cls)
    (context : String) (cls : Cls) (hS : env.isSerializer cls = true) :
    dictGet ((ts_interface env context none cls
        (ts_interface env context none cls reg).2).2).serializers context =
      some (((dictGet reg.serializers context).getD []) ++ [cls, cls])
    ∧ ∀ (reg0 : Registry Cls) (b prior pre suf : String),
        reg0.serializers = [(context, [cls, cls])] →
        get_ts_interface env reg0 cls context pre suf = some b →
        generate_ts env reg0 prior context pre suf false =
          some ("\ndeclare namespace " ++ context ++ " \x7b\n\n" ++ (b ++ b) ++ "\x7d") := by
  constructor
  · simp [ts_interface, hS, dictGet_dictUpdate_self]
  · intro reg0 b prior pre suf h0 hb
    unfold generate_ts
    rw [h0]
    simp [emitContexts, hb, joinAll, List.mapM.loop, empty_append_str, append_empty_str]

/-- Witness for the amended C2 at the concrete double registration of
`UserSerializer`. -/
theorem c2_amended_witness :
    dictGet c2RegistryTwice.serializers "default" = some [TCls.userSer, TCls.userSer]
    ∧ generate_ts tEnv c2RegistryTwice "" "default" "" "" false =
      some ("\ndeclare namespace default \x7b\n\n" ++ (userBlock ++ userBlock) ++ "\x7d") := by
  constructor
  · have h := (c2_amended tEnv (emptyRegistry TCls) "default" TCls.userSer (by rfl)).1
    exact h.trans (by rfl)
  · exact (c2_amended tEnv (emptyRegistry TCls) "default" TCls.userSer (by rfl)).2
      c2RegistryTwice userBlock "" "" "" (by rfl) (by rfl)

/-- Claim C3: a collection field wrapping child kind `K` resolves to
exactly the type string that a non-collection field of kind `K` receives
under the same context, schema and field name, with `[]` appended; every
tier consults the child kind, never the wrapping collection class. -/
theorem c3_collection_append {Cls : Type} [DecidableEq Cls] (env : Env Cls) (reg : Registry Cls)
    (field_name : String) (k childK : Cls) (context : String) (serializer : Cls)
    (pre suf : String) :
    process_field env reg field_name ⟨k, some childK⟩ context serializer pre suf =
      (process_field env reg field_name ⟨childK, none⟩ context serializer pre suf).map
        (fun p => (p.1, p.2 ++ "[]")) := by
  cases h : dictGet reg.serializers context with
  | none => simp [process_field, h]
  | some ctxSers => simp [process_field, h, baseKind, appendArray]

/-- Counterexample to claim C4: the generated file does not start with the
line `declare namespace default` followed by an opening brace; `generate_ts`
writes a newline before the namespace header, so the claimed exact text
(without a leading blank line) differs from the output. -/
theorem c4_counterexample :
    generate_ts tEnv c4Registry "previous sink contents" "default" "" "" false ≠
      some "declare namespace default \x7b\n\n  export interface User \x7b\n    [x: string]: number | string[];\n    id: number;\n    tags: string[];\n  \x7d\n\n\x7d" := by
  decide

/-- Claim C4 as amended: the end-to-end example emits exactly the claimed
block preceded by one leading newline (a blank first line): namespace
header, blank line, the `User` interface with index signature
`number | string[]`, the `id` and `tags` members, closing brace, blank
line, closing namespace brace, in registration order. -/
theorem c4_amended_output :
    generate_ts tEnv c4Registry "previous sink contents" "default" "" "" false =
      some "\ndeclare namespace default \x7b\n\n  export interface User \x7b\n    [x: string]: number | string[];\n    id: number;\n    tags: string[];\n  \x7d\n\n\x7d" := by
  rfl

/-- Counterexample to claim C5: resolution can return an empty type string.
A serializer class whose declared name is literally `Serializer`,
registered in the default context, synthesizes the interface name obtained
by stripping the `Serializer` suffix and wrapping with the (empty) prefix
and suffix, which is the empty string. -/
theorem c5_counterexample :
    process_field tEnv c5Registry "self" ⟨TCls.bareSer, none⟩ "default" TCls.bareSer "" "" =
      some ("self", "") := by
  rfl

/-- Claim C5 as amended: for every field of a schema in a registered
context, resolution is total and returns exactly one type string without
error (the string can be empty when a synthesized interface name or a
registered override is empty); a field whose kind matches no serializer
registration and no override resolves through the static table, with
fallback "any" when the kind is absent from it. -/
theorem c5_amended_total {Cls : Type} [DecidableEq Cls] (env : Env Cls) (reg : Registry Cls)
    (field_name : String) (field : FieldD Cls) (context : String) (serializer : Cls)
    (pre suf : String) (ctxSers : List Cls)
    (hC : dictGet reg.serializers context = some ctxSers) :
    (∃ t, process_field env reg field_name field context serializer pre suf =
      some (field_name, t))
    ∧ (baseKind field ∉ ctxSers → baseKind field ∉ defaultSerializers reg →
      kindOverride reg context (baseKind field) = none →
      kindOverride reg default_context (baseKind field) = none →
      nameOverride reg context serializer field_name = none →
      process_field env reg field_name field context serializer pre suf =
        some (field_name,
          appendArray field.child.isSome ((dictGet env.mappings (baseKind field)).getD "any"))) := by
  constructor
  · simp only [process_field, hC]
    exact ⟨_, rfl⟩
  · intro h2 h3 hk hd hn
    simp [process_field, hC, h2, h3, hk, hd, hn]

/-- Witness for the amended C5: a `ReadOnlyField`-kind field with no
registration, no override and no static table entry resolves to "any". -/
theorem c5_amended_total_witness :
    (∃ t, process_field tEnv c4Registry "extra" ⟨TCls.roField, none⟩ "default"
      TCls.userSer "" "" = some ("extra", t))
    ∧ process_field tEnv c4Registry "extra" ⟨TCls.roField, none⟩ "default"
      TCls.userSer "" "" = some ("extra", "any") := by
  have h := c5_amended_total tEnv c4Registry "extra" ⟨TCls.roField, none⟩ "default"
    TCls.userSer "" "" [TCls.userSer] (by rfl)
  exact ⟨h.1, (h.2 (by decide) (by decide) (by rfl) (by rfl) (by rfl)).trans (by rfl)⟩

/-- Claim C6: the synthetic index signature of a rendered schema is the
pipe-joined union of the resolved field type strings, deduplicated in
first-seen order over the ordered field list: the rendered block embeds
`" | ".intercalate (indexableTypes types)`, the deduplicated list has no
duplicates, keeps exactly the resolved types as members, and on resolved
types A, B, A, C (pairwise distinct) it is A, B, C. -/
theorem c6_index_signature {Cls : Type} [DecidableEq Cls] (env : Env Cls) (reg : Registry Cls)
    (S : Cls) (context pre suf : String) (pairs : List (String × String))
    (h : (env.fieldsOf S).mapM
      (fun kv => process_field env reg kv.1 kv.2 context S pre suf) = some pairs) :
    (∃ rest, get_ts_interface env reg S context pre suf =
      some ("  export interface " ++ get_interface_name (env.name S) pre suf ++ " \x7b\n" ++
        ("    [x: string]: " ++ " | ".intercalate (indexableTypes (pairs.map Prod.snd)) ++ ";" ++
          rest)))
    ∧ (indexableTypes (pairs.map Prod.snd)).Nodup
    ∧ (∀ x, x ∈ indexableTypes (pairs.map Prod.snd) ↔ x ∈ pairs.map Prod.snd)
    ∧ (∀ A B C : String, A ≠ B → A ≠ C → B ≠ C → indexableTypes [A, B, A, C] = [A, B, C]) := by
  refine ⟨?_, ?_, ?_, ?_⟩
  · refine ⟨"\n" ++ "\n".intercalate (pairs.map fieldLine) ++ "\n  \x7d\n\n", ?_⟩
    unfold get_ts_interface
    rw [h]
    show some (renderInterface (get_interface_name (env.name S) pre suf) pairs) = _
    unfold renderInterface
    simp only [String.append_assoc]
  · exact indexable_foldl_nodup _ [] List.nodup_nil
  · intro x
    rw [indexableTypes, indexable_foldl_mem]
    simp
  · intro A B C hAB hAC hBC
    have h1 : ¬ B = A := fun e => hAB e.symm
    have h2 : ¬ C = A := fun e => hAC e.symm
    have h3 : ¬ C = B := fun e => hBC e.symm
    simp [indexableTypes, h1, h2, h3]

/-- Witness for C6 at the concrete `UserSerializer` rendering and a
four-element list with one duplicate. -/
theorem c6_index_signature_witness :
    (indexableTypes ["number", "string[]"]).Nodup
    ∧ indexableTypes ["A", "B", "A", "C"] = ["A", "B", "C"] := by
  have h := c6_index_signature tEnv c4Registry TCls.userSer "default" "" ""
    [("id", "number"), ("tags", "string[]")] (by rfl)
  exact ⟨h.2.1, h.2.2.2 "A" "B" "C" (by decide) (by decide) (by decide)⟩

/-- Claim C7: a field whose kind is a registered schema resolves to exactly
the interface name the renderer gives that schema: both go through
`get_interface_name`, which strips one trailing `Serializer` from the
declared class name and wraps it with the prefix and suffix; the rendered
block of the schema itself starts with the same name, and
`AddressSerializer` with empty prefix and suffix yields `Address` with no
array suffix. -/
theorem c7_nested_naming {Cls : Type} [DecidableEq Cls] (env : Env Cls) (reg : Registry Cls)
    (S : Cls) (context : String) (owner : Cls) (field_name pre suf : String)
    (ctxSers : List Cls) (hC : dictGet reg.serializers context = some ctxSers)
    (hS : S ∈ ctxSers) :
    process_field env reg field_name ⟨S, none⟩ context owner pre suf =
      some (field_name, get_interface_name (env.name S) pre suf)
    ∧ (∀ b, get_ts_interface env reg S context pre suf = some b →
      ∃ rest, b = "  export interface " ++ get_interface_name (env.name S) pre suf ++
        " \x7b\n" ++ rest)
    ∧ get_interface_name "AddressSerializer" "" "" = "Address" := by
  refine ⟨?_, ?_, ?_⟩
  · simp [process_field, hC, baseKind, hS, appendArray]
  · intro b hb
    unfold get_ts_interface at hb
    rcases Option.map_eq_some'.mp hb with ⟨pairs, hp, hr⟩
    refine ⟨"    [x: string]: " ++
      " | ".intercalate (indexableTypes (pairs.map Prod.snd)) ++ ";" ++ "\n" ++
      "\n".intercalate (pairs.map fieldLine) ++ "\n  \x7d\n\n", ?_⟩
    rw [← hr]
    unfold renderInterface
    simp only [String.append_assoc]
  · rfl

/-- Witness for C7: the `address` field of kind `AddressSerializer`
resolves to `Address` in a registry with no overrides. -/
theorem c7_nested_naming_witness :
    process_field tEnv c7Registry "address" ⟨TCls.addrSer, none⟩ "default" TCls.userSer "" "" =
      some ("address", "Address")
    ∧ get_interface_name "AddressSerializer" "" "" = "Address" := by
  have h := c7_nested_naming tEnv c7Registry TCls.addrSer "default" TCls.userSer "address" "" ""
    [TCls.userSer, TCls.addrSer] (by rfl) (by decide)
  exact ⟨h.1.trans (by rfl), h.2.2⟩

/-- Claim C8: registration never raises; both decorators always hand the
decorated class back unchanged, and a class failing the capability check
(`issubclass` of Serializer for `ts_interface`, of Field for `ts_field`)
leaves the registry completely unchanged. -/
theorem c8_registration_noop {Cls : Type} [DecidableEq Cls] (env : Env Cls) (reg : Registry Cls)
    (context ts_type : String) (ov : Option (List (String × String))) (cls : Cls) :
    (ts_interface env context ov cls reg).1 = cls
    ∧ (ts_field env ts_type context cls reg).1 = cls
    ∧ (env.isSerializer cls = false → ts_interface env context ov cls reg = (cls, reg))
    ∧ (env.isField cls = false → ts_field env ts_type context cls reg = (cls, reg)) := by
  refine ⟨?_, ?_, ?_, ?_⟩
  · unfold ts_interface
    split <;> rfl
  · unfold ts_field
    split <;> rfl
  · intro h
    simp [ts_interface, h]
  · intro h
    simp [ts_field, h]

/-- Witness for C8: `IntegerField` is not a serializer and `UserSerializer`
is not a field kind in the concrete environment; both registrations are
no-ops returning the class. -/
theorem c8_registration_noop_witness :
    ts_interface tEnv "default" none TCls.intField (emptyRegistry TCls) =
      (TCls.intField, emptyRegistry TCls)
    ∧ ts_field tEnv "number" "default" TCls.userSer (emptyRegistry TCls) =
      (TCls.userSer, emptyRegistry TCls) := by
  have h1 := c8_registration_noop tEnv (emptyRegistry TCls) "default" "number" none TCls.intField
  have h2 := c8_registration_noop tEnv (emptyRegistry TCls) "default" "number" none TCls.userSer
  exact ⟨h1.2.2.1 (by rfl), h2.2.2.2 (by rfl)⟩

/-- Claim C9: calling `generate_ts` with `all_contexts` unset and a context
filter matching no registered context succeeds (no error) and, because the
sink is opened for writing (truncating) before any filtering, the prior
sink contents are discarded and the final sink contents are empty, with no
namespace block written, whatever the prior contents were. -/
theorem c9_no_match_empty {Cls : Type} [DecidableEq Cls] (env : Env Cls) (reg : Registry Cls)
    (context pre suf : String) (h : ∀ p ∈ reg.serializers, p.1 ≠ context) (prior : String) :
    generate_ts env reg prior context pre suf false = some "" := by
  unfold generate_ts
  exact emitContexts_no_match env reg context pre suf reg.serializers h

/-- Witness for C9: filtering for the unregistered `default` context in a
registry that only holds `internal` empties the sink. -/
theorem c9_no_match_empty_witness :
    generate_ts tEnv c9Registry "STALE PRIOR CONTENTS" "default" "" "" false = some "" := by
  exact c9_no_match_empty tEnv c9Registry "default" "" "" (by decide) "STALE PRIOR CONTENTS"

/-- Claim C10: a schema with an empty ordered field list still renders a
complete interface block whose index signature line has an empty union
(reading `[x: string]: ;`) followed by an empty member section; rendering
neither omits the index signature nor fails. -/
theorem c10_empty_fields {Cls : Type} [DecidableEq Cls] (env : Env Cls) (reg : Registry Cls)
    (S : Cls) (context pre suf : String) (h : env.fieldsOf S = []) :
    get_ts_interface env reg S context pre suf =
      some ("  export interface " ++ get_interface_name (env.name S) pre suf ++
        " \x7b\n    [x: string]: ;\n\n  \x7d\n\n") := by
  unfold get_ts_interface
  rw [h]
  show some (renderInterface (get_interface_name (env.name S) pre suf) []) = _
  rw [renderInterface_empty]

/-- Witness for C10: `AddressSerializer` has no fields in the concrete
environment and still renders a full block with the empty index union. -/
theorem c10_empty_fields_witness :
    get_ts_interface tEnv c7Registry TCls.addrSer "default" "" "" =
      some "  export interface Address \x7b\n    [x: string]: ;\n\n  \x7d\n\n" := by
  have h := c10_empty_fields tEnv c7Registry TCls.addrSer "default" "" "" (by rfl)
  exact h.trans (by rfl)

end DjangoTypomatic
